import Mathlib

/-!
Verification of the caching-and-normalization core of the Air Quality
Explorer server (`server/aqiService.js`).

The JavaScript source is shallowly embedded:
* strings are handled at the level of their Unicode code points
  (`List Nat`) where case/whitespace semantics matter, and as Lean
  `String`s elsewhere;
* JS numbers are `JsNumber` (either `NaN` or a rational value);
* the insertion-ordered `Map` backing the cache is an association list
  `List (String × CacheEntry)` whose operations mirror the JS `Map`
  semantics (`get`, `set` keeps the position of an existing key,
  `delete` removes the first — on reachable states the only — binding);
* the asynchronous `getCityAqi` is a pure function of the cache state,
  the configured token, the (single) transport response, and the clock,
  returning the outcome, the final cache state, and the number of
  outbound fetch calls performed; a JS `throw` is an `error` outcome.
-/

/-! ## JS string primitives (code-point level) -/

/-- Code points that `String.prototype.trim` removes (the WhiteSpace and
LineTerminator productions: tab, LF, VT, FF, CR, space, NBSP, LS, PS,
BOM, and the common Unicode space separators). -/
def isJsWhitespace (c : Nat) : Bool :=
  c = 9 ∨ c = 10 ∨ c = 11 ∨ c = 12 ∨ c = 13 ∨ c = 32 ∨ c = 160 ∨
    c = 0x2028 ∨ c = 0x2029 ∨ c = 0xFEFF ∨ c = 0x2000 ∨ c = 0x3000

/-- ASCII fragment of `String.prototype.toLowerCase`, on code points. -/
def jsCodeToLower (c : Nat) : Nat :=
  if 65 ≤ c ∧ c ≤ 90 then c + 32 else c

/-- `s.toLowerCase()` on a code-point string. -/
def jsToLower (s : List Nat) : List Nat := s.map jsCodeToLower

/-- `s.trim()` on a code-point string: drop whitespace from the front,
then from the back. -/
def jsTrim (s : List Nat) : List Nat :=
  (((s.dropWhile isJsWhitespace).reverse).dropWhile isJsWhitespace).reverse

def stringToCodes (s : String) : List Nat := s.toList.map Char.toNat

def codesToString (l : List Nat) : String := String.mk (l.map Char.ofNat)

/-- `const normalizeCityKey = (city) => city.trim().toLowerCase();` -/
def normalizeCityKey (city : String) : String :=
  codesToString (jsToLower (jsTrim (stringToCodes city)))

/-! ## JS numbers and the category classifier -/

/-- A JS value of type `number`: either `NaN` or an actual value
(modelled as a rational). -/
inductive JsNumber where
  | nan
  | val (q : ℚ)
deriving DecidableEq, Repr

/-- The object literal returned by `getAqiCategory`. -/
structure AqiCategory where
  label : String
  color : String
  level : String
  healthImplications : String
deriving DecidableEq, Repr

/-- `function getAqiCategory(aqi)` of `aqiService.js`. The argument is
`null` (`none`) or a number; `aqi == null` and `Number.isNaN(aqi)` both
select the Unknown category, and otherwise the value is bucketed by the
chain of `<=` tests. -/
def getAqiCategory : Option JsNumber → AqiCategory
  | none => ⟨"Unknown", "#9E9E9E", "unknown", "Air quality data is not available."⟩
  | some .nan => ⟨"Unknown", "#9E9E9E", "unknown", "Air quality data is not available."⟩
  | some (.val value) =>
    if value ≤ 50 then
      ⟨"Good", "#009966", "good",
        "Air quality is considered satisfactory, and air pollution poses little or no risk."⟩
    else if value ≤ 100 then
      ⟨"Moderate", "#FFDE33", "moderate",
        "Air quality is acceptable; however, for some pollutants there may be a moderate health concern for a very small number of people."⟩
    else if value ≤ 150 then
      ⟨"Unhealthy for Sensitive Groups", "#FF9933", "usg",
        "Members of sensitive groups may experience health effects. The general public is not likely to be affected."⟩
    else if value ≤ 200 then
      ⟨"Unhealthy", "#CC0033", "unhealthy",
        "Everyone may begin to experience health effects; members of sensitive groups may experience more serious health effects."⟩
    else if value ≤ 300 then
      ⟨"Very Unhealthy", "#660099", "very-unhealthy",
        "Health warnings of emergency conditions. The entire population is more likely to be affected."⟩
    else
      ⟨"Hazardous", "#7E0023", "hazardous",
        "Health alert: everyone may experience more serious health effects."⟩

/-- The bucketing exactly as the specification words it, with genuine
two-sided interval guards (used only to compare against
`getAqiCategory`; the final branch marker is proved unreachable). -/
def categorySpecLabel : Option JsNumber → String
  | none => "Unknown"
  | some .nan => "Unknown"
  | some (.val v) =>
    if v ≤ 50 then "Good"
    else if 50 < v ∧ v ≤ 100 then "Moderate"
    else if 100 < v ∧ v ≤ 150 then "Unhealthy for Sensitive Groups"
    else if 150 < v ∧ v ≤ 200 then "Unhealthy"
    else if 200 < v ∧ v ≤ 300 then "Very Unhealthy"
    else if 300 < v then "Hazardous"
    else "unreachable"

/-! ## Raw provider documents and the normalized record -/

/-- `key.toLowerCase()` on a Lean `String`. -/
def strLower (s : String) : String := codesToString (jsToLower (stringToCodes s))

/-- ASCII fragment of `String.prototype.toUpperCase`, on code points. -/
def jsCodeToUpper (c : Nat) : Nat :=
  if 97 ≤ c ∧ c ≤ 122 then c - 32 else c

/-- `key.toUpperCase()` on a Lean `String`. -/
def strUpper (s : String) : String := codesToString ((stringToCodes s).map jsCodeToUpper)

/-- JS string truthiness for an optional string field: `undefined`,
`null` and `""` are falsy. -/
def strTruthy : Option String → Bool
  | none => false
  | some s => s ≠ ""

/-- The `city` sub-object of the raw AQICN document. `geo` is an array
(arrays are truthy even when empty), `name` and `url` are strings. -/
structure RawCity where
  name : Option String
  geo : Option (List JsNumber)
  url : Option String
deriving DecidableEq, Repr

/-- The `time` sub-object of the raw AQICN document. -/
structure RawTime where
  iso : Option String
  tz : Option String
deriving DecidableEq, Repr

/-- One entry of the raw `attributions` array (passed through as-is). -/
structure Attribution where
  name : Option String
  url : Option String
deriving DecidableEq, Repr

/-- The `data` payload of the raw AQICN document. `aqi` is `some n`
exactly when `typeof d.aqi === "number"`; an `iaqi` sub-value is
`some n` exactly when the sub-object is truthy and its `v` field is a
number (`NaN` included — `typeof NaN === "number"`). -/
structure RawData where
  aqi : Option JsNumber
  iaqi : Option (List (String × Option JsNumber))
  city : Option RawCity
  dominentpol : Option String
  time : Option RawTime
  attributions : Option (List Attribution)
deriving DecidableEq, Repr

/-- The raw AQICN response document: `status` plus the `data` payload
(`none` models an absent/falsy `data`). -/
structure RawDoc where
  status : Option String
  data : Option RawData
deriving DecidableEq, Repr

/-- One pollutant measurement as built by `normalizeAqicnResponse`. The
`value` field holds the JS variable `value`, which the source code
computes as number-or-`null`; the theorems show `none` never reaches the
stored map. -/
structure Measurement where
  value : Option JsNumber
  label : String
  unit : String
deriving DecidableEq, Repr

/-- The `aqi` block of the normalized record:
`{ value: aqi, ...category }`. -/
structure AqiBlock where
  value : Option JsNumber
  label : String
  color : String
  level : String
  healthImplications : String
deriving DecidableEq, Repr

/-- The `city` block of the normalized record. -/
structure CityInfo where
  name : String
  geo : Option (List JsNumber)
  url : Option String
deriving DecidableEq, Repr

/-- The `time` block of the normalized record (`raw` is the pass-through
of the whole raw `time` object, `d.time || null`). -/
structure TimeInfo where
  iso : Option String
  timezone : Option String
  raw : Option RawTime
deriving DecidableEq, Repr

/-- The cache block attached to a response:
`{ hit: boolean, ttlMs: number }`. -/
structure CacheMeta where
  hit : Bool
  ttlMs : Nat
deriving DecidableEq, Repr

/-- The `meta` block. A freshly normalized (and cached) record carries
no `cache` field; it is merged in at response time. -/
structure MetaInfo where
  provider : String
  apiDocs : String
  cache : Option CacheMeta
deriving DecidableEq, Repr

/-- The normalized record returned by `normalizeAqicnResponse`. -/
structure AqiRecord where
  source : String
  query : String
  city : CityInfo
  aqi : AqiBlock
  dominantPollutant : Option String
  measurements : List (String × Measurement)
  time : TimeInfo
  attribution : List Attribution
  meta : MetaInfo
deriving DecidableEq, Repr

/-- The `switch (pollutantName)` assigning the display label; the
`default` branch uppercases the (already lowercased) code. The initial
`label = key.toUpperCase()` in the source is dead — every switch path
reassigns `label`. -/
def pollutantLabel (pollutantName : String) : String :=
  if pollutantName = "pm25" then "PM2.5 (fine particulate matter)"
  else if pollutantName = "pm10" then "PM10 (coarse particulate matter)"
  else if pollutantName = "o3" then "Ozone (O₃)"
  else if pollutantName = "no2" then "Nitrogen Dioxide (NO₂)"
  else if pollutantName = "so2" then "Sulfur Dioxide (SO₂)"
  else if pollutantName = "co" then "Carbon Monoxide (CO)"
  else strUpper pollutantName

/-- JS object property assignment `obj[k] = v`: an existing property
keeps its position, a new one is appended. -/
def jsObjSet (m : List (String × Measurement)) (k : String) (v : Measurement) :
    List (String × Measurement) :=
  match m with
  | [] => [(k, v)]
  | (k₀, v₀) :: rest =>
    if k₀ = k then (k, v) :: rest else (k₀, v₀) :: jsObjSet rest k v

/-- The `for (const [key, val] of Object.entries(d.iaqi))` loop building
`measurements`: `value` is `val.v` when that is a number and `null`
otherwise; a `null` value is skipped (`continue`), otherwise the entry
is stored under the lowercased code with its display label and the
fixed unit. -/
def measurementStep (acc : List (String × Measurement))
    (kv : String × Option JsNumber) : List (String × Measurement) :=
  let value : Option JsNumber := kv.2
  if value = none then acc
  else
    let pollutantName := strLower kv.1
    jsObjSet acc pollutantName ⟨value, pollutantLabel pollutantName, "µg/m³"⟩

def buildMeasurements (iaqi : List (String × Option JsNumber)) :
    List (String × Measurement) :=
  iaqi.foldl measurementStep []

/-- `function normalizeAqicnResponse(raw, cityQuery)` of `aqiService.js`.
Returns `none` when `!raw || raw.status !== "ok" || !raw.data`. -/
def normalizeAqicnResponse (raw : Option RawDoc) (cityQuery : String) :
    Option AqiRecord :=
  match raw with
  | none => none
  | some doc =>
    if doc.status ≠ some "ok" then none
    else match doc.data with
    | none => none
    | some d =>
      let aqi : Option JsNumber := d.aqi
      let category := getAqiCategory aqi
      let measurements :=
        match d.iaqi with
        | none => []
        | some iaqi => buildMeasurements iaqi
      some
        { source := "aqicn.org"
          query := cityQuery
          city :=
            { name :=
                match d.city with
                | some c => if strTruthy c.name then c.name.getD cityQuery else cityQuery
                | none => cityQuery
              geo :=
                match d.city with
                | some c => c.geo
                | none => none
              url :=
                match d.city with
                | some c => if strTruthy c.url then c.url else none
                | none => none }
          aqi :=
            { value := aqi
              label := category.label
              color := category.color
              level := category.level
              healthImplications := category.healthImplications }
          dominantPollutant :=
            match d.dominentpol with
            | some s => if s = "" then none else some s
            | none => none
          measurements := measurements
          time :=
            { iso :=
                match d.time with
                | some t => if strTruthy t.iso then t.iso else none
                | none => none
              timezone :=
                match d.time with
                | some t => if strTruthy t.tz then t.tz else none
                | none => none
              raw := d.time }
          attribution := d.attributions.getD []
          meta :=
            { provider := "World Air Quality Index (WAQI)"
              apiDocs := "https://aqicn.org/api/"
              cache := none } }

/-! ## The cache store -/

/-- `const CACHE_TTL_MS = 5 * 60 * 1000;` -/
def CACHE_TTL_MS : Int := 5 * 60 * 1000

/-- `const MAX_CACHE_ENTRIES = 100;` -/
def MAX_CACHE_ENTRIES : Nat := 100

/-- One value of the cache `Map`:
`{ data, expiresAt, lastAccessed }`. -/
structure CacheEntry where
  data : AqiRecord
  expiresAt : Int
  lastAccessed : Int
deriving DecidableEq, Repr

/-- The cache `Map`, as an association list in insertion order (first
element = oldest position, the one `cache.keys().next().value` yields). -/
abbrev Cache := List (String × CacheEntry)

/-- `cache.get(key)`. -/
def mapGet (m : Cache) (k : String) : Option CacheEntry :=
  match m with
  | [] => none
  | (k₀, e₀) :: rest => if k₀ = k then some e₀ else mapGet rest k

/-- `cache.set(key, entry)`: an existing key keeps its position in the
iteration order; a new key is appended at the most-recent end. -/
def mapSet (m : Cache) (k : String) (e : CacheEntry) : Cache :=
  match m with
  | [] => [(k, e)]
  | (k₀, e₀) :: rest =>
    if k₀ = k then (k, e) :: rest else (k₀, e₀) :: mapSet rest k e

/-- `cache.delete(key)`: removes the binding of `key` (the first one in
the list; `Map` states never hold a key twice). -/
def mapDelete (m : Cache) (k : String) : Cache :=
  match m with
  | [] => []
  | (k₀, e₀) :: rest =>
    if k₀ = k then rest else (k₀, e₀) :: mapDelete rest k

/-- The keys of a cache state, in iteration order. -/
def cacheKeys (m : Cache) : List String := m.map Prod.fst

/-- `function evictIfNeeded()`: nothing happens at size ≤ 100; otherwise
the first (= oldest) key is read, and deleted only if it is truthy —
the empty-string key is falsy and is therefore never evicted. -/
def evictIfNeeded (m : Cache) : Cache :=
  if m.length ≤ MAX_CACHE_ENTRIES then m
  else
    match m with
    | [] => m
    | (oldestKey, _) :: _ =>
      if oldestKey = "" then m else mapDelete m oldestKey

/-- `function getFromCache(city)`, with the `Date.now()` reading passed
in as `now`. Returns the updated cache state together with the returned
value (`entry.data` or `null`). A hit deletes and re-inserts the entry
with `lastAccessed` refreshed, moving it to the most-recent end. -/
def getFromCache (m : Cache) (city : String) (now : Int) :
    Cache × Option AqiRecord :=
  let key := normalizeCityKey city
  match mapGet m key with
  | none => (m, none)
  | some entry =>
    if entry.expiresAt ≤ now then (mapDelete m key, none)
    else
      let m₁ := mapDelete m key
      let m₂ := mapSet m₁ key { entry with lastAccessed := now }
      (m₂, some entry.data)

/-- `function setInCache(city, data)`, with the `Date.now()` reading
passed in as `now`. -/
def setInCache (m : Cache) (city : String) (data : AqiRecord) (now : Int) :
    Cache :=
  let key := normalizeCityKey city
  let entry : CacheEntry :=
    { data := data, expiresAt := now + CACHE_TTL_MS, lastAccessed := now }
  evictIfNeeded (mapSet m key entry)

/-! ## The lookup orchestration (`getCityAqi`) -/

/-- The errors `getCityAqi` can throw: the missing-token `Error`, the
non-OK-HTTP `Error`, and the `TypeError` raised by dereferencing a
`null` value (e.g. `normalized.meta` when normalization returned
`null`). -/
inductive JsError where
  | missingToken
  | httpError (status : Nat)
  | nullDeref
deriving DecidableEq, Repr

/-- What a call to `getCityAqi` produces: a fulfilled record, a
fulfilled `null` (the defined negative outcome), or a thrown error. -/
inductive LookupOutcome where
  | result (r : AqiRecord)
  | absent
  | error (e : JsError)
deriving DecidableEq, Repr

/-- The transport response the (single) `fetch` would yield:
`response.ok`, `response.status`, and the parsed JSON body
(`none` models a `null` body). -/
structure FetchResponse where
  ok : Bool
  status : Nat
  body : Option RawDoc
deriving DecidableEq, Repr

/-- `{ ...record, meta: { ...record.meta, cache: { hit, ttlMs: CACHE_TTL_MS } } }` -/
def withCacheMeta (r : AqiRecord) (hit : Bool) : AqiRecord :=
  { r with meta := { r.meta with cache := some ⟨hit, 5 * 60 * 1000⟩ } }

/-- JS string truthiness of the configured token
(`process.env.AQICN_API_TOKEN`): absent or empty is falsy. -/
def tokenMissing (token : Option String) : Bool :=
  match token with
  | none => true
  | some t => t = ""

/-- `export async function getCityAqi(city)`, as a pure function of the
cache state `m`, the configured `token`, the transport response `resp`
the one possible `fetch` would produce, and the clock reading `now`.
Returns the outcome, the final cache state, and the number of outbound
`fetch` calls made. The final `return { ...normalized, meta: {
...normalized.meta, ... } }` dereferences `normalized.meta`; when
`normalizeAqicnResponse` returned `null` that throws a `TypeError`,
modelled as the `nullDeref` error outcome. -/
def getCityAqi (m : Cache) (city : String) (token : Option String)
    (resp : FetchResponse) (now : Int) : LookupOutcome × Cache × Nat :=
  let (m₁, cached) := getFromCache m city now
  match cached with
  | some rec => (.result (withCacheMeta rec true), m₁, 0)
  | none =>
    if tokenMissing token then (.error .missingToken, m₁, 0)
    else if ¬ resp.ok then (.error (.httpError resp.status), m₁, 1)
    else
      match resp.body with
      | none => (.error .nullDeref, m₁, 1)
      | some raw =>
        if raw.status ≠ some "ok" then (.absent, m₁, 1)
        else
          match normalizeAqicnResponse (some raw) city with
          | some normalized =>
            (.result (withCacheMeta normalized false),
              setInCache m₁ city normalized now, 1)
          | none => (.error .nullDeref, m₁, 1)

/-! ## Test fixtures and derived iteration -/

/-- A concrete normalized record, used by the concrete scenarios. -/
def sampleRecord : AqiRecord :=
  { source := "aqicn.org"
    query := "x"
    city := ⟨"x", none, none⟩
    aqi := ⟨some (.val 42), "Good", "#009966", "good",
      "Air quality is considered satisfactory, and air pollution poses little or no risk."⟩
    dominantPollutant := none
    measurements := []
    time := ⟨none, none, none⟩
    attribution := []
    meta := ⟨"World Air Quality Index (WAQI)", "https://aqicn.org/api/", none⟩ }

/-- A concrete cache entry wrapping `sampleRecord`. -/
def dummyEntry : CacheEntry := ⟨sampleRecord, 1000, 0⟩

/-- The i-th of a family of distinct one-character city keys, each
fixed by `normalizeCityKey` (no whitespace, no uppercase ASCII). -/
def cacheKeyN (i : Nat) : String := String.mk [Char.ofNat (200 + i)]

/-- A cache state of exactly 100 entries whose oldest key is the empty
string (reachable by caching a whitespace-only city first). -/
def emptyKeyCache : Cache :=
  ("", dummyEntry) :: (List.range 99).map fun i => (cacheKeyN i, dummyEntry)

/-- The spec scenario: 101 `setInCache` calls with distinct keys,
starting from the empty cache. -/
def insert101 : Cache :=
  (List.range 101).foldl (fun acc i => setInCache acc (cacheKeyN i) sampleRecord 0) []

/-- Iterated cache hits: fold `getFromCache` at the clock readings `ts`
over the cache state, keeping the state component. -/
def touchMany (m : Cache) (city : String) (ts : List Int) : Cache :=
  ts.foldl (fun acc t => (getFromCache acc city t).1) m

/-- C3's hypothesis, formalized on code points: each string is a
(possibly empty) run of leading whitespace, a core, and a run of
trailing whitespace, and the two cores agree letter-case-insensitively
(i.e. they lowercase to the same code-point string). -/
def differOnlyByCaseOrWs (s₁ s₂ : String) : Prop :=
  ∃ w₁ t₁ w₂ w₃ t₂ w₄ : List Nat,
    (∀ c ∈ w₁, isJsWhitespace c) ∧ (∀ c ∈ w₂, isJsWhitespace c) ∧
    (∀ c ∈ w₃, isJsWhitespace c) ∧ (∀ c ∈ w₄, isJsWhitespace c) ∧
    stringToCodes s₁ = w₁ ++ t₁ ++ w₂ ∧
    stringToCodes s₂ = w₃ ++ t₂ ++ w₄ ∧
    jsToLower t₁ = jsToLower t₂

/-! ## Lemmas: city-key normalization -/

lemma isJsWhitespace_jsCodeToLower (c : Nat) :
    isJsWhitespace (jsCodeToLower c) = isJsWhitespace c := by
  unfold jsCodeToLower
  split
  · next h =>
    unfold isJsWhitespace
    rw [decide_eq_decide]
    omega
  · rfl

lemma dropWhile_ws_append {w : List Nat} (s : List Nat)
    (hw : ∀ c ∈ w, isJsWhitespace c) :
    (w ++ s).dropWhile isJsWhitespace = s.dropWhile isJsWhitespace := by
  induction w with
  | nil => rfl
  | cons a w ih =>
    have ha : isJsWhitespace a := hw a (by simp)
    simp only [List.cons_append, List.dropWhile_cons, ha, if_true]
    exact ih fun c hc => hw c (by simp [hc])

lemma dropWhile_ws_self {w : List Nat} (hw : ∀ c ∈ w, isJsWhitespace c) :
    w.dropWhile isJsWhitespace = [] :=
  List.dropWhile_eq_nil_iff.mpr hw

lemma jsTrim_surround {w₁ w₂ : List Nat} (t : List Nat)
    (h₁ : ∀ c ∈ w₁, isJsWhitespace c) (h₂ : ∀ c ∈ w₂, isJsWhitespace c) :
    jsTrim (w₁ ++ t ++ w₂) = jsTrim t := by
  unfold jsTrim
  rw [List.append_assoc, dropWhile_ws_append _ h₁, List.dropWhile_append]
  by_cases h : (t.dropWhile isJsWhitespace).isEmpty = true
  · rw [if_pos h, dropWhile_ws_self h₂]
    rw [List.isEmpty_iff] at h
    rw [h]
  · rw [if_neg h, List.reverse_append,
      dropWhile_ws_append _ fun c hc => h₂ c (List.mem_reverse.mp hc)]

lemma ws_comp_lower : isJsWhitespace ∘ jsCodeToLower = isJsWhitespace :=
  funext isJsWhitespace_jsCodeToLower

lemma jsToLower_jsTrim (s : List Nat) :
    jsToLower (jsTrim s) = jsTrim (jsToLower s) := by
  unfold jsTrim jsToLower
  rw [List.dropWhile_map, ws_comp_lower, ← List.map_reverse,
    List.dropWhile_map, ws_comp_lower, ← List.map_reverse]

/-- **C3.** Two city strings that differ only by letter case or by
leading/trailing whitespace normalize to the identical cache key. -/
theorem normalizeCityKey_eq_of_differOnlyByCaseOrWs (s₁ s₂ : String)
    (h : differOnlyByCaseOrWs s₁ s₂) :
    normalizeCityKey s₁ = normalizeCityKey s₂ := by
  obtain ⟨w₁, t₁, w₂, w₃, t₂, w₄, hw₁, hw₂, hw₃, hw₄, e₁, e₂, hlow⟩ := h
  unfold normalizeCityKey
  rw [e₁, e₂, jsTrim_surround t₁ hw₁ hw₂, jsTrim_surround t₂ hw₃ hw₄,
    jsToLower_jsTrim, jsToLower_jsTrim, hlow]

/-- Witness for C3: `" DELHI"` and `"delhi  "` differ only by case and
surrounding whitespace, and indeed get the same cache key. -/
theorem normalizeCityKey_eq_of_differOnlyByCaseOrWs_witness :
    differOnlyByCaseOrWs " DELHI" "delhi  " ∧
      normalizeCityKey " DELHI" = normalizeCityKey "delhi  " := by
  have h : differOnlyByCaseOrWs " DELHI" "delhi  " := by
    refine ⟨[32], [68, 69, 76, 72, 73], [], [], [100, 101, 108, 104, 105],
      [32, 32], ?_, ?_, ?_, ?_, ?_, ?_, ?_⟩ <;> decide
  exact ⟨h, normalizeCityKey_eq_of_differOnlyByCaseOrWs _ _ h⟩

/-! ## The category classifier (C2) -/

/-- **C2.** `getAqiCategory` realizes exactly the inclusive-upper-bound
bucketing of the spec (`categorySpecLabel`): null/NaN → Unknown,
v ≤ 50 → Good, 50 < v ≤ 100 → Moderate, 100 < v ≤ 150 → Unhealthy for
Sensitive Groups, 150 < v ≤ 200 → Unhealthy, 200 < v ≤ 300 → Very
Unhealthy, 300 < v → Hazardous; in particular at the boundary values
50, 100, 150, 200, 300 and at 301. -/
theorem getAqiCategory_matches_spec :
    (∀ x : Option JsNumber, (getAqiCategory x).label = categorySpecLabel x) ∧
    (getAqiCategory none).label = "Unknown" ∧
    (getAqiCategory (some .nan)).label = "Unknown" ∧
    (getAqiCategory (some (.val 50))).label = "Good" ∧
    (getAqiCategory (some (.val 100))).label = "Moderate" ∧
    (getAqiCategory (some (.val 150))).label = "Unhealthy for Sensitive Groups" ∧
    (getAqiCategory (some (.val 200))).label = "Unhealthy" ∧
    (getAqiCategory (some (.val 300))).label = "Very Unhealthy" ∧
    (getAqiCategory (some (.val 301))).label = "Hazardous" := by
  refine ⟨?_, by decide, by decide, by decide, by decide, by decide,
    by decide, by decide, by decide⟩
  intro x
  match x with
  | none => rfl
  | some .nan => rfl
  | some (.val v) =>
    rcases le_or_lt v 50 with h50 | h50
    · simp [getAqiCategory, categorySpecLabel, h50]
    rcases le_or_lt v 100 with h100 | h100
    · simp [getAqiCategory, categorySpecLabel, h50.not_le, h50, h100]
    rcases le_or_lt v 150 with h150 | h150
    · simp [getAqiCategory, categorySpecLabel, h50.not_le, h100.not_le,
        h100, h150]
    rcases le_or_lt v 200 with h200 | h200
    · simp [getAqiCategory, categorySpecLabel, h50.not_le, h100.not_le,
        h150.not_le, h150, h200]
    rcases le_or_lt v 300 with h300 | h300
    · simp [getAqiCategory, categorySpecLabel, h50.not_le, h100.not_le,
        h150.not_le, h200.not_le, h200, h300]
    · simp [getAqiCategory, categorySpecLabel, h50.not_le, h100.not_le,
        h150.not_le, h200.not_le, h300.not_le, h300]

/-! ## Lemmas: the cache map -/

lemma mapGet_eq_none_of_not_mem {m : Cache} {k : String}
    (h : k ∉ cacheKeys m) : mapGet m k = none := by
  induction m with
  | nil => rfl
  | cons p rest ih =>
    obtain ⟨k₀, e₀⟩ := p
    have hk : k₀ ≠ k := by
      intro he; exact h (by simp [cacheKeys, he])
    simp only [mapGet, if_neg hk]
    exact ih fun hm => h (by simp [cacheKeys] at hm ⊢; exact Or.inr hm)

lemma keys_mapDelete_sublist (m : Cache) (k : String) :
    (cacheKeys (mapDelete m k)).Sublist (cacheKeys m) := by
  induction m with
  | nil => simp [mapDelete]
  | cons p rest ih =>
    obtain ⟨k₀, e₀⟩ := p
    by_cases hk : k₀ = k
    · simp only [mapDelete, if_pos hk, cacheKeys, List.map_cons]
      exact (List.sublist_cons_self _ _)
    · simp only [mapDelete, if_neg hk, cacheKeys, List.map_cons]
      exact ih.cons₂ _

lemma nodup_keys_mapDelete {m : Cache} (k : String)
    (h : (cacheKeys m).Nodup) : (cacheKeys (mapDelete m k)).Nodup :=
  (keys_mapDelete_sublist m k).nodup h

lemma not_mem_keys_mapDelete {m : Cache} {k : String}
    (h : (cacheKeys m).Nodup) : k ∉ cacheKeys (mapDelete m k) := by
  induction m with
  | nil => simp [mapDelete, cacheKeys]
  | cons p rest ih =>
    obtain ⟨k₀, e₀⟩ := p
    simp only [cacheKeys, List.map_cons, List.nodup_cons] at h
    by_cases hk : k₀ = k
    · simp only [mapDelete, if_pos hk]
      subst hk
      exact h.1
    · simp only [mapDelete, if_neg hk, cacheKeys, List.map_cons,
        List.mem_cons]
      rintro (he | hm)
      · exact hk he.symm
      · exact ih h.2 hm

lemma mapGet_mapDelete_self {m : Cache} {k : String}
    (h : (cacheKeys m).Nodup) : mapGet (mapDelete m k) k = none :=
  mapGet_eq_none_of_not_mem (not_mem_keys_mapDelete h)

lemma length_mapDelete {m : Cache} {k : String} {e : CacheEntry}
    (h : mapGet m k = some e) : (mapDelete m k).length + 1 = m.length := by
  induction m with
  | nil => simp [mapGet] at h
  | cons p rest ih =>
    obtain ⟨k₀, e₀⟩ := p
    by_cases hk : k₀ = k
    · simp [mapDelete, if_pos hk]
    · simp only [mapGet, if_neg hk] at h
      simp only [mapDelete, if_neg hk, List.length_cons]
      rw [← ih h]

lemma mapSet_eq_append {m : Cache} {k : String} (e : CacheEntry)
    (h : mapGet m k = none) : mapSet m k e = m ++ [(k, e)] := by
  induction m with
  | nil => rfl
  | cons p rest ih =>
    obtain ⟨k₀, e₀⟩ := p
    by_cases hk : k₀ = k
    · simp [mapGet, if_pos hk] at h
    · simp only [mapGet, if_neg hk] at h
      simp only [mapSet, if_neg hk, List.cons_append]
      rw [ih h]

lemma length_mapSet_le (m : Cache) (k : String) (e : CacheEntry) :
    (mapSet m k e).length ≤ m.length + 1 := by
  induction m with
  | nil => simp [mapSet]
  | cons p rest ih =>
    obtain ⟨k₀, e₀⟩ := p
    by_cases hk : k₀ = k
    · simp [mapSet, if_pos hk]
    · simp only [mapSet, if_neg hk, List.length_cons]
      omega

lemma mapGet_append_of_none {m m' : Cache} {k : String}
    (h : mapGet m k = none) : mapGet (m ++ m') k = mapGet m' k := by
  induction m with
  | nil => rfl
  | cons p rest ih =>
    obtain ⟨k₀, e₀⟩ := p
    by_cases hk : k₀ = k
    · simp [mapGet, if_pos hk] at h
    · simp only [mapGet, if_neg hk] at h
      simp only [List.cons_append, mapGet, if_neg hk]
      exact ih h

lemma cacheKeys_append (m m' : Cache) :
    cacheKeys (m ++ m') = cacheKeys m ++ cacheKeys m' := by
  simp [cacheKeys]

lemma getFromCache_eq_of_get_none {m : Cache} {city : String} {now : Int}
    (h : mapGet m (normalizeCityKey city) = none) :
    getFromCache m city now = (m, none) := by
  unfold getFromCache
  simp only []
  rw [h]

lemma getFromCache_eq_of_get_some {m : Cache} {city : String} {now : Int}
    {e : CacheEntry} (h : mapGet m (normalizeCityKey city) = some e) :
    getFromCache m city now =
      if e.expiresAt ≤ now then (mapDelete m (normalizeCityKey city), none)
      else
        (mapSet (mapDelete m (normalizeCityKey city)) (normalizeCityKey city)
            ⟨e.data, e.expiresAt, now⟩,
          some e.data) := by
  unfold getFromCache
  simp only []
  rw [h]

/-! ## Lemmas: touching an unexpired entry -/

lemma touch_state {m : Cache} {city : String} {t : Int} {e : CacheEntry}
    (hn : (cacheKeys m).Nodup)
    (hg : mapGet m (normalizeCityKey city) = some e)
    (hlt : t < e.expiresAt) :
    (getFromCache m city t).1 =
      mapDelete m (normalizeCityKey city) ++
        [(normalizeCityKey city, ⟨e.data, e.expiresAt, t⟩)] := by
  have hrw := @getFromCache_eq_of_get_some _ _ t _ hg
  rw [if_neg (not_le.mpr hlt)] at hrw
  rw [hrw]
  simpa using mapSet_eq_append _ (mapGet_mapDelete_self hn)

lemma touch_nodup {m : Cache} {city : String} {t : Int} {e : CacheEntry}
    (hn : (cacheKeys m).Nodup)
    (hg : mapGet m (normalizeCityKey city) = some e)
    (hlt : t < e.expiresAt) :
    (cacheKeys (getFromCache m city t).1).Nodup := by
  rw [touch_state hn hg hlt, cacheKeys_append]
  refine List.Nodup.append (nodup_keys_mapDelete _ hn) (by simp [cacheKeys]) ?_
  intro a ha hb
  simp [cacheKeys] at hb
  subst hb
  exact not_mem_keys_mapDelete hn ha

lemma touch_get {m : Cache} {city : String} {t : Int} {e : CacheEntry}
    (hn : (cacheKeys m).Nodup)
    (hg : mapGet m (normalizeCityKey city) = some e)
    (hlt : t < e.expiresAt) :
    mapGet (getFromCache m city t).1 (normalizeCityKey city) =
      some ⟨e.data, e.expiresAt, t⟩ := by
  rw [touch_state hn hg hlt,
    mapGet_append_of_none (mapGet_mapDelete_self hn)]
  simp [mapGet]

lemma touchMany_invariant (ts : List Int) :
    ∀ (m : Cache) (city : String) (e : CacheEntry),
      (cacheKeys m).Nodup →
      mapGet m (normalizeCityKey city) = some e →
      (∀ t ∈ ts, t < e.expiresAt) →
      ∃ e', (cacheKeys (touchMany m city ts)).Nodup ∧
        mapGet (touchMany m city ts) (normalizeCityKey city) = some e' ∧
        e'.data = e.data ∧ e'.expiresAt = e.expiresAt := by
  induction ts with
  | nil => exact fun m city e hn hg _ => ⟨e, hn, hg, rfl, rfl⟩
  | cons t rest ih =>
    intro m city e hn hg hts
    have hlt : t < e.expiresAt := hts t (by simp)
    have hstep : touchMany m city (t :: rest) =
        touchMany (getFromCache m city t).1 city rest := rfl
    rw [hstep]
    obtain ⟨e', h₁, h₂, h₃, h₄⟩ :=
      ih _ city ⟨e.data, e.expiresAt, t⟩ (touch_nodup hn hg hlt)
        (touch_get hn hg hlt) (fun s hs => hts s (by simp [hs]))
    exact ⟨e', h₁, h₂, h₃, h₄⟩

/-! ## C8: lazy expiry and LRU touch -/

/-- **C8.** For a key present in the cache: if its `expiresAt` has
passed at lookup time, `getFromCache` deletes the entry and returns
absent, and the cache size decreases by one; if it is unexpired,
`getFromCache` returns the stored record and re-inserts the entry with
`lastAccessed` refreshed to the current clock, at the
most-recently-used end of the map. -/
theorem getFromCache_expiry_and_touch (m : Cache) (city : String)
    (now : Int) (e : CacheEntry)
    (hn : (cacheKeys m).Nodup)
    (hg : mapGet m (normalizeCityKey city) = some e) :
    (e.expiresAt ≤ now →
       getFromCache m city now = (mapDelete m (normalizeCityKey city), none) ∧
       (getFromCache m city now).1.length + 1 = m.length) ∧
    (now < e.expiresAt →
       getFromCache m city now =
         (mapDelete m (normalizeCityKey city) ++
            [(normalizeCityKey city, ⟨e.data, e.expiresAt, now⟩)],
           some e.data) ∧
       (getFromCache m city now).1.getLast? =
         some (normalizeCityKey city, ⟨e.data, e.expiresAt, now⟩)) := by
  constructor
  · intro hle
    have h0 : getFromCache m city now = (mapDelete m (normalizeCityKey city), none) := by
      rw [getFromCache_eq_of_get_some hg, if_pos hle]
    refine ⟨h0, ?_⟩
    rw [h0]
    simpa using length_mapDelete hg
  · intro hlt
    have h1 : getFromCache m city now =
        (mapDelete m (normalizeCityKey city) ++
           [(normalizeCityKey city, ⟨e.data, e.expiresAt, now⟩)],
          some e.data) := by
      have hrw := @getFromCache_eq_of_get_some _ _ now _ hg
      rw [if_neg (not_le.mpr hlt)] at hrw
      rw [hrw, mapSet_eq_append _ (mapGet_mapDelete_self hn)]
    refine ⟨h1, ?_⟩
    rw [h1]
    simp

/-- Witness for C8: a one-entry cache whose entry expires at time 10.
Looking it up at time 10 deletes it and reports absent; looking it up
at time 5 returns the stored record. -/
theorem getFromCache_expiry_and_touch_witness :
    getFromCache [("delhi", ⟨sampleRecord, 10, 0⟩)] "delhi" 10 =
      (mapDelete [("delhi", ⟨sampleRecord, 10, 0⟩)] (normalizeCityKey "delhi"), none) ∧
    (getFromCache [("delhi", ⟨sampleRecord, 10, 0⟩)] "delhi" 5).2 = some sampleRecord := by
  have hexp :=
    (getFromCache_expiry_and_touch [("delhi", ⟨sampleRecord, 10, 0⟩)] "delhi" 10
        ⟨sampleRecord, 10, 0⟩ (by decide) (by decide)).1 (by decide)
  have htch :=
    (getFromCache_expiry_and_touch [("delhi", ⟨sampleRecord, 10, 0⟩)] "delhi" 5
        ⟨sampleRecord, 10, 0⟩ (by decide) (by decide)).2 (by decide)
  exact ⟨hexp.1, by rw [htch.1]⟩

/-! ## C9: hits never extend an entry's lifetime -/

/-- **C9.** A cache hit re-inserts the entry with only `lastAccessed`
updated (the stored record and `expiresAt` are unchanged), and any
number of hits before `expiresAt` still leaves the entry expiring at
that original `expiresAt`: a lookup at or after it returns absent. -/
theorem cacheHit_never_extends_lifetime (m : Cache) (city : String)
    (e : CacheEntry) (ts : List Int) (now : Int)
    (hn : (cacheKeys m).Nodup)
    (hg : mapGet m (normalizeCityKey city) = some e)
    (hts : ∀ t ∈ ts, t < e.expiresAt) :
    (∀ t, t < e.expiresAt →
       mapGet (getFromCache m city t).1 (normalizeCityKey city) =
         some ⟨e.data, e.expiresAt, t⟩) ∧
    (∃ e', mapGet (touchMany m city ts) (normalizeCityKey city) = some e' ∧
       e'.data = e.data ∧ e'.expiresAt = e.expiresAt) ∧
    (e.expiresAt ≤ now →
       (getFromCache (touchMany m city ts) city now).2 = none) := by
  obtain ⟨e', h₁, h₂, h₃, h₄⟩ := touchMany_invariant ts m city e hn hg hts
  refine ⟨fun t ht => touch_get hn hg ht, ⟨e', h₂, h₃, h₄⟩, fun hle => ?_⟩
  rw [getFromCache_eq_of_get_some h₂, if_pos (by rw [h₄]; exact hle)]

/-- Witness for C9: after hits at times 1, 2 and 3, the entry that
expires at 10 still reports absent at time 10. -/
theorem cacheHit_never_extends_lifetime_witness :
    (getFromCache (touchMany [("delhi", ⟨sampleRecord, 10, 0⟩)] "delhi" [1, 2, 3])
        "delhi" 10).2 = none := by
  exact (cacheHit_never_extends_lifetime [("delhi", ⟨sampleRecord, 10, 0⟩)] "delhi"
    ⟨sampleRecord, 10, 0⟩ [1, 2, 3] 10 (by decide) (by decide)
    (by decide)).2.2 (by decide)

/-! ## C4: capacity bound and eviction -/

set_option maxRecDepth 10000 in
/-- Counterexample to C4 as stated: on a cache of exactly 100 entries
whose oldest key is the empty string (the normalized key of a
whitespace-only city), one more `setInCache` with a fresh key leaves
101 entries — the eviction guard `if (oldestKey)` treats the empty
string as falsy and skips the deletion. -/
theorem setInCache_exceeds_capacity_on_empty_key :
    emptyKeyCache.length = MAX_CACHE_ENTRIES ∧
    (setInCache emptyKeyCache (cacheKeyN 100) sampleRecord 0).length =
      MAX_CACHE_ENTRIES + 1 := by
  decide

set_option maxRecDepth 10000 in
/-- **C4 (amended).** Provided every key in the cache is nonempty, a
`setInCache` call on a cache of size at most 100 leaves the size at
most 100; when the insertion pushes the size to 101, exactly one entry
is evicted — the oldest (the head of the insertion-or-touch order) —
leaving exactly 100. Moreover, inserting 101 distinct (nonempty,
normalization-fixed) keys into the empty cache leaves exactly 100
entries, and the least-recently-touched key of the 101 is absent. -/
theorem setInCache_capacity_bound :
    (∀ (m : Cache) (city : String) (data : AqiRecord) (now : Int),
        (∀ kv ∈ m, kv.1 ≠ "") →
        m.length ≤ MAX_CACHE_ENTRIES →
        (setInCache m city data now).length ≤ MAX_CACHE_ENTRIES ∧
        ((mapSet m (normalizeCityKey city)
              ⟨data, now + CACHE_TTL_MS, now⟩).length = MAX_CACHE_ENTRIES + 1 →
          setInCache m city data now =
            (mapSet m (normalizeCityKey city)
              ⟨data, now + CACHE_TTL_MS, now⟩).tail ∧
          (setInCache m city data now).length = MAX_CACHE_ENTRIES)) ∧
    insert101.length = MAX_CACHE_ENTRIES ∧
    mapGet insert101 (cacheKeyN 0) = none := by
  refine ⟨?_, by decide, by decide⟩
  intro m city data now hne hlen
  have hset : setInCache m city data now =
      evictIfNeeded (mapSet m (normalizeCityKey city)
        ⟨data, now + CACHE_TTL_MS, now⟩) := rfl
  set key := normalizeCityKey city with hkey
  set ent : CacheEntry := ⟨data, now + CACHE_TTL_MS, now⟩ with hent
  have hle : (mapSet m key ent).length ≤ m.length + 1 := length_mapSet_le m key ent
  by_cases hsmall : (mapSet m key ent).length ≤ MAX_CACHE_ENTRIES
  · have hev : evictIfNeeded (mapSet m key ent) = mapSet m key ent := by
      unfold evictIfNeeded
      rw [if_pos hsmall]
    refine ⟨by rw [hset, hev]; exact hsmall, fun h101 => ?_⟩
    rw [h101] at hsmall
    exact absurd hsmall (by norm_num [MAX_CACHE_ENTRIES])
  · have h101 : (mapSet m key ent).length = MAX_CACHE_ENTRIES + 1 := by
      unfold MAX_CACHE_ENTRIES at hsmall hle hlen ⊢
      omega
    rcases m with _ | ⟨⟨k₀, e₀⟩, rest⟩
    · exact absurd hsmall (by simp [mapSet, MAX_CACHE_ENTRIES])
    · have hk₀ : k₀ ≠ "" := hne (k₀, e₀) (by simp)
      obtain ⟨x, rest', hm'⟩ : ∃ x rest',
          mapSet ((k₀, e₀) :: rest) key ent = (k₀, x) :: rest' := by
        by_cases h : k₀ = key
        · refine ⟨ent, rest, ?_⟩
          simp only [mapSet, if_pos h]
          rw [h]
        · exact ⟨e₀, mapSet rest key ent, by simp only [mapSet, if_neg h]⟩
      rw [hm'] at hsmall h101 ⊢
      have hev : evictIfNeeded ((k₀, x) :: rest') = rest' := by
        unfold evictIfNeeded
        rw [if_neg hsmall]
        simp only []
        rw [if_neg hk₀]
        unfold mapDelete
        rw [if_pos rfl]
      have hlen' : rest'.length = MAX_CACHE_ENTRIES := by
        simp only [List.length_cons] at h101
        omega
      exact ⟨by rw [hset, hm', hev]; omega,
        fun _ => ⟨by rw [hset, hm', hev]; rfl, by rw [hset, hm', hev]; exact hlen'⟩⟩

/-- Witness for C4 (amended): a singleton cache with a nonempty key
stays within capacity after one more insertion. -/
theorem setInCache_capacity_bound_witness :
    (setInCache [(cacheKeyN 0, dummyEntry)] (cacheKeyN 1) sampleRecord 0).length ≤
      MAX_CACHE_ENTRIES :=
  (setInCache_capacity_bound.1 [(cacheKeyN 0, dummyEntry)] (cacheKeyN 1)
    sampleRecord 0 (by decide) (by decide)).1

/-! ## C7: the measurements map -/

lemma mem_jsObjSet {m : List (String × Measurement)} {k c : String}
    {v ms : Measurement} (h : (c, ms) ∈ jsObjSet m k v) :
    (c, ms) ∈ m ∨ (c = k ∧ ms = v) := by
  induction m with
  | nil =>
    simp [jsObjSet] at h
    exact Or.inr h
  | cons p rest ih =>
    obtain ⟨k₀, v₀⟩ := p
    by_cases hk : k₀ = k
    · simp only [jsObjSet, if_pos hk] at h
      rcases List.mem_cons.mp h with h | h
      · simp at h
        exact Or.inr h
      · exact Or.inl (List.mem_cons.mpr (Or.inr h))
    · simp only [jsObjSet, if_neg hk] at h
      rcases List.mem_cons.mp h with h | h
      · exact Or.inl (by simp [h])
      · rcases ih h with h' | h'
        · exact Or.inl (List.mem_cons.mpr (Or.inr h'))
        · exact Or.inr h'

lemma measurementStep_preserves {acc : List (String × Measurement)}
    {kv : String × Option JsNumber}
    (h : ∀ p ∈ acc, p.2.value ≠ none ∧ p.2.label = pollutantLabel p.1 ∧
      p.2.unit = "µg/m³") :
    ∀ p ∈ measurementStep acc kv, p.2.value ≠ none ∧
      p.2.label = pollutantLabel p.1 ∧ p.2.unit = "µg/m³" := by
  intro p hp
  unfold measurementStep at hp
  simp only [] at hp
  split at hp
  · exact h p hp
  · next hv =>
    obtain ⟨c, ms⟩ := p
    rcases mem_jsObjSet hp with h' | ⟨hc, hms⟩
    · exact h _ h'
    · subst hc
      subst hms
      exact ⟨hv, rfl, rfl⟩

lemma foldl_measurementStep_ok (iaqi : List (String × Option JsNumber)) :
    ∀ acc, (∀ p ∈ acc, p.2.value ≠ none ∧ p.2.label = pollutantLabel p.1 ∧
        p.2.unit = "µg/m³") →
      ∀ p ∈ iaqi.foldl measurementStep acc, p.2.value ≠ none ∧
        p.2.label = pollutantLabel p.1 ∧ p.2.unit = "µg/m³" := by
  induction iaqi with
  | nil => intro acc h; simpa using h
  | cons kv rest ih =>
    intro acc h
    rw [List.foldl_cons]
    exact ih _ (measurementStep_preserves h)

/-- **C7.** Every entry of the measurements map of a record accepted by
`normalizeAqicnResponse` has a numeric (non-null) value — sub-values
without a numeric `v` are skipped, not stored with a null value — and
carries the fixed display label of its (lowercased) pollutant code and
the fixed unit `µg/m³`. -/
theorem normalize_measurements_all_numeric (raw : Option RawDoc)
    (cityQuery : String) (rec : AqiRecord)
    (h : normalizeAqicnResponse raw cityQuery = some rec) :
    ∀ p ∈ rec.measurements, p.2.value ≠ none ∧
      p.2.label = pollutantLabel p.1 ∧ p.2.unit = "µg/m³" := by
  rcases raw with _ | ⟨status, data⟩
  · simp [normalizeAqicnResponse] at h
  rcases data with _ | d
  · unfold normalizeAqicnResponse at h
    simp only [] at h
    split at h
    · exact absurd h (by simp)
    · exact absurd h (by simp)
  unfold normalizeAqicnResponse at h
  simp only [] at h
  split at h
  · exact absurd h (by simp)
  rw [Option.some_inj] at h
  subst h
  rcases hiaqi : d.iaqi with _ | iaqi
  · simp [hiaqi]
  · simp only [hiaqi]
    unfold buildMeasurements
    exact foldl_measurementStep_ok iaqi [] (by simp)

/-- The spec's Delhi scenario document. -/
def delhiRaw : RawDoc :=
  { status := some "ok"
    data := some
      { aqi := some (.val 164)
        iaqi := some [("pm25", some (.val 89))]
        city := some ⟨some "Delhi, India", some [.val 28.66667, .val 77.21667], none⟩
        dominentpol := some "pm25"
        time := none
        attributions := none } }

/-- The record the Delhi scenario normalizes to. -/
def delhiRec : AqiRecord :=
  { source := "aqicn.org"
    query := "delhi"
    city := ⟨"Delhi, India", some [.val 28.66667, .val 77.21667], none⟩
    aqi := ⟨some (.val 164), "Unhealthy", "#CC0033", "unhealthy",
      "Everyone may begin to experience health effects; members of sensitive groups may experience more serious health effects."⟩
    dominantPollutant := some "pm25"
    measurements := [("pm25", ⟨some (.val 89), "PM2.5 (fine particulate matter)", "µg/m³"⟩)]
    time := ⟨none, none, none⟩
    attribution := []
    meta := ⟨"World Air Quality Index (WAQI)", "https://aqicn.org/api/", none⟩ }

/-- Witness for C7: the spec's Delhi scenario — category "Unhealthy",
a single `pm25` measurement of 89 µg/m³ — satisfies the invariant. -/
theorem normalize_measurements_all_numeric_witness :
    normalizeAqicnResponse (some delhiRaw) "delhi" = some delhiRec ∧
    ∀ p ∈ delhiRec.measurements, p.2.value ≠ none ∧
      p.2.label = pollutantLabel p.1 ∧ p.2.unit = "µg/m³" := by
  have h : normalizeAqicnResponse (some delhiRaw) "delhi" = some delhiRec := by
    rfl
  exact ⟨h, normalize_measurements_all_numeric _ _ _ h⟩

/-! ## C10: cache hits bypass the credential check -/

/-- **C10.** When the lookup hits the cache, `getCityAqi` returns the
cached record with `cache.hit = true` and performs no fetch, for every
token configuration — including an absent token: the credential check
sits after the cache lookup. -/
theorem getCityAqi_cacheHit_ignores_token (m : Cache) (city : String)
    (token : Option String) (resp : FetchResponse) (now : Int) (rec : AqiRecord)
    (h : (getFromCache m city now).2 = some rec) :
    getCityAqi m city token resp now =
      (.result (withCacheMeta rec true), (getFromCache m city now).1, 0) := by
  have hgc : getFromCache m city now = ((getFromCache m city now).1, some rec) := by
    rw [← h, Prod.mk.eta]
  unfold getCityAqi
  rw [hgc]

/-- Witness for C10: a valid cached entry is served with `hit = true`
even though the token is absent. -/
theorem getCityAqi_cacheHit_ignores_token_witness :
    getCityAqi [("delhi", ⟨sampleRecord, 10, 0⟩)] "delhi" none
        ⟨true, 200, some ⟨some "ok", none⟩⟩ 5 =
      (.result (withCacheMeta sampleRecord true),
        (getFromCache [("delhi", ⟨sampleRecord, 10, 0⟩)] "delhi" 5).1, 0) :=
  getCityAqi_cacheHit_ignores_token _ "delhi" none _ 5 sampleRecord (by decide)

/-! ## C6: missing credential fails before any fetch -/

/-- **C6.** On a cache miss with the access token absent (or empty),
`getCityAqi` fails with the missing-credential error and performs zero
outbound fetch calls. -/
theorem getCityAqi_missingToken_no_fetch (m : Cache) (city : String)
    (token : Option String) (resp : FetchResponse) (now : Int)
    (hmiss : (getFromCache m city now).2 = none)
    (htok : tokenMissing token = true) :
    getCityAqi m city token resp now =
      (.error .missingToken, (getFromCache m city now).1, 0) := by
  have hgc : getFromCache m city now = ((getFromCache m city now).1, none) := by
    rw [← hmiss, Prod.mk.eta]
  unfold getCityAqi
  rw [hgc]
  simp [htok]

/-- Witness for C6: empty cache, no token — the missing-credential
error is raised with a fetch count of zero. -/
theorem getCityAqi_missingToken_no_fetch_witness :
    getCityAqi [] "delhi" none ⟨true, 200, some ⟨some "ok", none⟩⟩ 0 =
      (.error .missingToken, (getFromCache [] "delhi" 0).1, 0) :=
  getCityAqi_missingToken_no_fetch [] "delhi" none _ 0 (by decide) (by decide)

/-! ## C5: negative results are not cached -/

/-- **C5.** On a true cache miss (no entry for the normalized key), a
provider document whose status is not "ok" makes `getCityAqi` return
the absent outcome with the cache exactly as before (the negative
result is not stored), after one fetch. -/
theorem getCityAqi_negativeResult_not_cached (m : Cache) (city : String)
    (token : Option String) (resp : FetchResponse) (now : Int) (raw : RawDoc)
    (hmiss : mapGet m (normalizeCityKey city) = none)
    (htok : tokenMissing token = false)
    (hok : resp.ok = true)
    (hbody : resp.body = some raw)
    (hstatus : raw.status ≠ some "ok") :
    getCityAqi m city token resp now = (.absent, m, 1) := by
  unfold getCityAqi
  rw [getFromCache_eq_of_get_none hmiss]
  simp [htok, hok, hbody, hstatus]

/-- Witness for C5: the spec scenario `{status:"error"}` — `lookup`
returns absent and the (empty) cache is unchanged. -/
theorem getCityAqi_negativeResult_not_cached_witness :
    getCityAqi [] "delhi" (some "t") ⟨true, 200, some ⟨some "error", none⟩⟩ 0 =
      (.absent, [], 1) :=
  getCityAqi_negativeResult_not_cached [] "delhi" (some "t") _ 0
    ⟨some "error", none⟩ (by decide) (by decide) (by decide) (by decide)
    (by decide)

/-! ## C1: status ok without data -/

/-- **C1** (refuted by the code — a code bug): for the provider document
`{status:"ok"}` with no data payload, normalization yields `null` and
nothing is stored in the cache, but `getCityAqi` throws a `TypeError`
(the `normalized.meta` dereference on `null` in its final `return`)
instead of returning the defined absent (`null`) result. -/
theorem getCityAqi_ok_without_data_throws :
    normalizeAqicnResponse (some ⟨some "ok", none⟩) "Delhi" = none ∧
    getCityAqi [] "Delhi" (some "token") ⟨true, 200, some ⟨some "ok", none⟩⟩ 0 =
      (.error .nullDeref, [], 1) := by
  decide

/-- Witness for C2: the characterization applied at the concrete value
137 (a mid-bucket point). -/
theorem getAqiCategory_matches_spec_witness :
    (getAqiCategory (some (.val 137))).label = categorySpecLabel (some (.val 137)) :=
  getAqiCategory_matches_spec.1 (some (.val 137))
